import Mathlib

/-
Shallow embedding of src/VulkanExamples/ComputeNBody/ComputeNBody.cpp.

Float arithmetic of the source is modelled over the rationals (exact
arithmetic).  The C++ `std::normal_distribution` sample stream is modelled
as an abstract stream `s : Nat -> Rat` of sampled values, consumed in
left-to-right argument order; each non-center particle consumes exactly
seven samples (three position offsets, three velocity jitters, one mass),
so the particle at group `i`, slot `j >= 1` reads the seven samples starting
at index `7 * (i * (per - 1) + (j - 1))` of the stream — the closed form of
the sequential consumption of the engine in the source's double loop.

The source computes `len = glm::length(glm::normalize(position - attractor))`
and only ever uses `len * len`.  Over exact arithmetic
`length(normalize v) ^ 2 = dot v v / dot v v`, which is how `normLenSq`
models it (rational division, with `0 / 0 = 0` for the zero offset).
-/

/-- Three-component vector of exact rationals, modelling glm::vec3. -/
structure Vec3 where
  x : ℚ
  y : ℚ
  z : ℚ
deriving DecidableEq

/-- Four-component vector of exact rationals, modelling glm::vec4. -/
structure Vec4 where
  x : ℚ
  y : ℚ
  z : ℚ
  w : ℚ
deriving DecidableEq

/-- Particle as declared in the source: pos.w carries the mass and
vel.w carries the color-gradient texture position. -/
structure Particle where
  pos : Vec4
  vel : Vec4
deriving DecidableEq

def vadd (a b : Vec3) : Vec3 := ⟨a.x + b.x, a.y + b.y, a.z + b.z⟩

def vsub (a b : Vec3) : Vec3 := ⟨a.x - b.x, a.y - b.y, a.z - b.z⟩

def vscale (c : ℚ) (a : Vec3) : Vec3 := ⟨c * a.x, c * a.y, c * a.z⟩

def dot (a b : Vec3) : ℚ := a.x * b.x + a.y * b.y + a.z * b.z

/-- Cross product, glm convention. -/
def cross (a b : Vec3) : Vec3 :=
  ⟨a.y * b.z - a.z * b.y, a.z * b.x - a.x * b.z, a.x * b.y - a.y * b.x⟩

/-- Squared length of the normalized vector: models
`glm::length(glm::normalize v) ^ 2`, which over exact arithmetic is
`dot v v / dot v v` (1 for nonzero `v`; rational `0 / 0 = 0` at `v = 0`). -/
def normLenSq (v : Vec3) : ℚ := dot v v / dot v v

/-- Attenuation factor `2.0f - (len * len)` applied to the y coordinate
(source line 188). -/
def yFactor (v : Vec3) : ℚ := 2 - normLenSq v

/-- Attractor list from `prepareStorageBuffers` (source lines 152-159). -/
def attractors : List Vec3 :=
  [⟨5, 0, 0⟩, ⟨-5, 0, 0⟩, ⟨0, 0, 5⟩, ⟨0, 0, -5⟩, ⟨0, 4, 0⟩, ⟨0, -8, 0⟩]

/-- PARTICLES_PER_ATTRACTOR: 3*1024 on Android, 4*1024 otherwise
(source lines 19-24). -/
def particlesPerAttractor (android : Bool) : Nat :=
  if android then 3 * 1024 else 4 * 1024

/-- numParticles = attractors.size() * PARTICLES_PER_ATTRACTOR
(source line 163). -/
def numParticles (android : Bool) : Nat :=
  attractors.length * particlesPerAttractor android

/-- Seed passed to std::default_random_engine:
`benchmark.active ? 0 : (unsigned)time(nullptr)` (source line 168). -/
def chosenSeed (benchmarkActive : Bool) (time : Nat) : Nat :=
  if benchmarkActive then 0 else time

/-- Gradient-texture position written to vel.w: `i * 1.0f / ATTRACTORS_SIZE`
(source line 200). -/
def gradientIndex (i groupCount : Nat) : ℚ := (i : ℚ) / (groupCount : ℚ)

/-- Heavy center of gravity: slot 0 of each group (source lines 178-182,
then line 200 overwrites vel.w). -/
def centerParticle (i groupCount : Nat) (attractor : Vec3) : Particle :=
  { pos := ⟨attractor.x * (3/2), attractor.y * (3/2), attractor.z * (3/2), 90000⟩
    vel := ⟨0, 0, 0, gradientIndex i groupCount⟩ }

/-- Gaussian position offset scaled by 0.75 (source line 186). -/
def bodyOffset (r0 r1 r2 : ℚ) : Vec3 := vscale (3/4) ⟨r0, r1, r2⟩

/-- Particle position after the y attenuation: the offset position has its
y coordinate multiplied by `2 - len^2` (source lines 186-188). -/
def bodyPosition (r0 r1 r2 : ℚ) (attractor : Vec3) : Vec3 :=
  let p := vadd attractor (bodyOffset r0 r1 r2)
  ⟨p.x, p.y * yFactor (vsub p attractor), p.z⟩

/-- Angular axis (0.5, 1.5, 0.5), sign alternating by group parity
(source line 191). -/
def angularVec (i : Nat) : Vec3 :=
  vscale (if i % 2 = 0 then 1 else -1) ⟨1/2, 3/2, 1/2⟩

/-- Initial velocity: cross product of the (already y-attenuated) offset
with the angular axis, plus Gaussian jitter (source line 192). -/
def bodyVelocity (r0 r1 r2 r3 r4 r5 : ℚ) (i : Nat) (attractor : Vec3) : Vec3 :=
  vadd (cross (vsub (bodyPosition r0 r1 r2 attractor) attractor) (angularVec i))
    ⟨r3, r4, r5 * (1/40)⟩

/-- Mass `(rnd * 0.5f + 0.5f) * 75.0f` (source line 194). -/
def bodyMass (r6 : ℚ) : ℚ := (r6 * (1/2) + 1/2) * 75

/-- Non-center particle built from its seven Gaussian samples
(source lines 184-197, then line 200 sets vel.w). -/
def bodyParticle (r0 r1 r2 r3 r4 r5 r6 : ℚ) (i groupCount : Nat)
    (attractor : Vec3) : Particle :=
  { pos := ⟨(bodyPosition r0 r1 r2 attractor).x, (bodyPosition r0 r1 r2 attractor).y,
            (bodyPosition r0 r1 r2 attractor).z, bodyMass r6⟩
    vel := ⟨(bodyVelocity r0 r1 r2 r3 r4 r5 i attractor).x,
            (bodyVelocity r0 r1 r2 r3 r4 r5 i attractor).y,
            (bodyVelocity r0 r1 r2 r3 r4 r5 i attractor).z,
            gradientIndex i groupCount⟩ }

/-- Particle written to flat slot `i * per + j` by the double loop of
`prepareStorageBuffers` (source lines 171-202). -/
def particleAt (s : Nat → ℚ) (groupCount per i j : Nat) (attractor : Vec3) :
    Particle :=
  if j = 0 then centerParticle i groupCount attractor
  else
    let base := 7 * (i * (per - 1) + (j - 1))
    bodyParticle (s base) (s (base + 1)) (s (base + 2)) (s (base + 3))
      (s (base + 4)) (s (base + 5)) (s (base + 6)) i groupCount attractor

/-- The full initial particle buffer produced by `prepareStorageBuffers`. -/
def initParticles (s : Nat → ℚ) (attrs : List Vec3) (per : Nat) :
    List Particle :=
  (List.range attrs.length).flatMap fun i =>
    (List.range per).map fun j =>
      particleAt s attrs.length per i j (attrs.getD i ⟨0, 0, 0⟩)

/-
Command-buffer embedding.  Vulkan enumeration values are the numeric
constants of vulkan_core.h; recorded commands are modelled as a list.
-/

def VK_PIPELINE_STAGE_TOP_OF_PIPE_BIT : Nat := 1

def VK_PIPELINE_STAGE_VERTEX_INPUT_BIT : Nat := 4

def VK_PIPELINE_STAGE_COLOR_ATTACHMENT_OUTPUT_BIT : Nat := 1024

def VK_PIPELINE_STAGE_COMPUTE_SHADER_BIT : Nat := 2048

def VK_PIPELINE_STAGE_BOTTOM_OF_PIPE_BIT : Nat := 8192

def VK_ACCESS_VERTEX_ATTRIBUTE_READ_BIT : Nat := 4

def VK_ACCESS_SHADER_READ_BIT : Nat := 32

def VK_ACCESS_SHADER_WRITE_BIT : Nat := 64

def VK_QUEUE_FAMILY_IGNORED : Nat := 4294967295

/-- VkBufferMemoryBarrier on the shared storage buffer (struct type, buffer
handle, offset and size fields are constant in the source and omitted). -/
structure BufferBarrier where
  srcAccessMask : Nat
  dstAccessMask : Nat
  srcQueueFamilyIndex : Nat
  dstQueueFamilyIndex : Nat
deriving DecidableEq

/-- Pipelines bound in the source's command buffers. -/
inductive Pipe where
  | calculate : Pipe
  | integrate : Pipe
  | particleGraphics : Pipe
deriving DecidableEq

/-- Commands recorded into a command buffer by the source. -/
inductive Cmd where
  | copyBuffer : Cmd
  | pipelineBarrier (srcStage dstStage : Nat) (b : BufferBarrier) : Cmd
  | bindPipeline (p : Pipe) : Cmd
  | bindDescriptorSets : Cmd
  | dispatch (x y z : Nat) : Cmd
  | beginLabel : Cmd
  | endLabel : Cmd
  | beginRenderPass : Cmd
  | setViewport : Cmd
  | setScissor : Cmd
  | bindVertexBuffers : Cmd
  | draw (vertexCount instanceCount firstVertex firstInstance : Nat) : Cmd
  | drawUI : Cmd
  | endRenderPass : Cmd
deriving DecidableEq

/-- Upload command buffer of `prepareStorageBuffers`: staging copy plus,
when the queue families differ, a release barrier handing the buffer to the
compute family (source lines 221-236). -/
def uploadCmds (gq cq : Nat) : List Cmd :=
  [Cmd.copyBuffer] ++
  (if gq ≠ cq then
    [Cmd.pipelineBarrier VK_PIPELINE_STAGE_VERTEX_INPUT_BIT
      VK_PIPELINE_STAGE_BOTTOM_OF_PIPE_BIT
      ⟨VK_ACCESS_VERTEX_ATTRIBUTE_READ_BIT, 0, gq, cq⟩]
  else [])

/-- Compute command buffer recorded by `buildComputeCommandBuffer`
(source lines 451-508), parameterized by the two queue-family indices and
the particle count. -/
def computeCmds (gq cq n : Nat) : List Cmd :=
  (if gq ≠ cq then
    [Cmd.pipelineBarrier VK_PIPELINE_STAGE_TOP_OF_PIPE_BIT
      VK_PIPELINE_STAGE_COMPUTE_SHADER_BIT
      ⟨0, VK_ACCESS_SHADER_WRITE_BIT, gq, cq⟩]
  else []) ++
  [Cmd.bindPipeline Pipe.calculate,
   Cmd.bindDescriptorSets,
   Cmd.dispatch (n / 256) 1 1,
   Cmd.pipelineBarrier VK_PIPELINE_STAGE_COMPUTE_SHADER_BIT
     VK_PIPELINE_STAGE_COMPUTE_SHADER_BIT
     ⟨VK_ACCESS_SHADER_WRITE_BIT, VK_ACCESS_SHADER_READ_BIT,
      VK_QUEUE_FAMILY_IGNORED, VK_QUEUE_FAMILY_IGNORED⟩,
   Cmd.bindPipeline Pipe.integrate,
   Cmd.dispatch (n / 256) 1 1] ++
  (if gq ≠ cq then
    [Cmd.pipelineBarrier VK_PIPELINE_STAGE_COMPUTE_SHADER_BIT
      VK_PIPELINE_STAGE_BOTTOM_OF_PIPE_BIT
      ⟨VK_ACCESS_SHADER_WRITE_BIT, 0, cq, gq⟩]
  else [])

/-- Graphics command buffer recorded by `buildCommandBuffersForMainRendering`
for one framebuffer (source lines 348-425). -/
def graphicsCmds (gq cq n : Nat) : List Cmd :=
  [Cmd.beginLabel] ++
  (if gq ≠ cq then
    [Cmd.pipelineBarrier VK_PIPELINE_STAGE_TOP_OF_PIPE_BIT
      VK_PIPELINE_STAGE_VERTEX_INPUT_BIT
      ⟨0, VK_ACCESS_VERTEX_ATTRIBUTE_READ_BIT, cq, gq⟩]
  else []) ++
  [Cmd.endLabel,
   Cmd.beginLabel,
   Cmd.beginRenderPass,
   Cmd.setViewport,
   Cmd.setScissor,
   Cmd.bindPipeline Pipe.particleGraphics,
   Cmd.bindDescriptorSets,
   Cmd.bindVertexBuffers,
   Cmd.draw n 1 0 0,
   Cmd.endLabel,
   Cmd.drawUI,
   Cmd.endRenderPass] ++
  (if gq ≠ cq then
    [Cmd.pipelineBarrier VK_PIPELINE_STAGE_VERTEX_INPUT_BIT
      VK_PIPELINE_STAGE_BOTTOM_OF_PIPE_BIT
      ⟨VK_ACCESS_VERTEX_ATTRIBUTE_READ_BIT, 0, gq, cq⟩]
  else [])

/-- A recorded command is an ownership-transfer barrier when its source and
destination queue-family indices differ (the in-queue barrier between the
two dispatches uses VK_QUEUE_FAMILY_IGNORED on both sides and is not one). -/
def isOwnershipTransfer : Cmd → Bool
  | Cmd.pipelineBarrier _ _ b =>
      decide (b.srcQueueFamilyIndex ≠ b.dstQueueFamilyIndex)
  | _ => false

def ownershipBarrierCount (cmds : List Cmd) : Nat :=
  (cmds.filter isOwnershipTransfer).length

def hasOwnershipBarrier (cmds : List Cmd) : Bool :=
  cmds.any isOwnershipTransfer

/-- Whether any of the recorded command streams carries an ownership-transfer
barrier for the given pair of queue-family indices. -/
def emitsBarrier (gq cq n : Nat) : Bool :=
  hasOwnershipBarrier (uploadCmds gq cq) &&
  hasOwnershipBarrier (computeCmds gq cq n) &&
  hasOwnershipBarrier (graphicsCmds gq cq n)

/-- Workgroup count of a dispatch command (x dimension). -/
def dispatchGroupCount : Cmd → Option Nat
  | Cmd.dispatch x _ _ => some x
  | _ => none

/-- The workgroup counts of the dispatches recorded in a command buffer,
in order. -/
def dispatchCounts (cmds : List Cmd) : List Nat :=
  cmds.filterMap dispatchGroupCount

/-- Global thread indices spawned by a dispatch of `n / 256` workgroups of
local size 256 (the two compute shaders use local_size_x = 256). -/
def dispatchThreadIds (n : Nat) : List Nat :=
  List.range ((n / 256) * 256)

/-
Semaphore protocol embedding.  `Sem` lists the binary semaphores of the
per-frame protocol: the graphics/compute handoff pair plus the per-frame
presentation-engine semaphores.
-/

/-- Binary semaphores used by `draw` (source lines 603-636):
`g` is graphics.semaphore, `c` is compute.semaphore, `pres i` is
semaphores.presentComplete as signaled for frame `i`, `rend i` is
semaphores.renderComplete for frame `i`. -/
inductive Sem where
  | g : Sem
  | c : Sem
  | pres : Nat → Sem
  | rend : Nat → Sem
deriving DecidableEq

/-- Wait set of the compute submission (source lines 612-613). -/
def computeSubmitWaits : List Sem := [Sem.g]

/-- Signal set of the compute submission (source lines 615-616). -/
def computeSubmitSignals : List Sem := [Sem.c]

/-- Wait set of the graphics submission (source lines 622, 628-629). -/
def graphicsSubmitWaits (frame : Nat) : List Sem := [Sem.c, Sem.pres frame]

/-- Signal set of the graphics submission (source lines 623, 631-632). -/
def graphicsSubmitSignals (frame : Nat) : List Sem := [Sem.g, Sem.rend frame]

/-- Signalled-state of the semaphores. -/
structure SemSt where
  gSig : Bool
  cSig : Bool
  presSig : List Nat
  rendSig : List Nat
deriving DecidableEq

def getSem (s : SemSt) : Sem → Bool
  | Sem.g => s.gSig
  | Sem.c => s.cSig
  | Sem.pres i => s.presSig.contains i
  | Sem.rend i => s.rendSig.contains i

def setSem (s : SemSt) : Sem → SemSt
  | Sem.g => { s with gSig := true }
  | Sem.c => { s with cSig := true }
  | Sem.pres i => { s with presSig := i :: s.presSig }
  | Sem.rend i => { s with rendSig := i :: s.rendSig }

def clearSem (s : SemSt) : Sem → SemSt
  | Sem.g => { s with gSig := false }
  | Sem.c => { s with cSig := false }
  | Sem.pres i => { s with presSig := s.presSig.erase i }
  | Sem.rend i => { s with rendSig := s.rendSig.erase i }

/-- A submission with the given wait and signal sets may begin execution
when every waited semaphore is signalled; beginning it consumes the waited
semaphores and signals the signalled ones (binary-semaphore semantics). -/
def fire (waits signals : List Sem) (s : SemSt) : Option SemSt :=
  if waits.all (getSem s) then
    some (signals.foldl setSem (waits.foldl clearSem s))
  else none

/-- Protocol state: semaphore state plus the index of the next compute and
next graphics submission of each queue (submissions of one queue begin
execution in submission order). -/
structure PState where
  sem : SemSt
  nextC : Nat
  nextG : Nat
deriving DecidableEq

/-- GPU-side scheduling events: the presentation engine signalling
presentComplete for an acquired image, the compute queue beginning the
frame-`i` compute submission, the graphics queue beginning the frame-`i`
graphics submission, and the presentation engine consuming renderComplete. -/
inductive Ev where
  | acquire : Nat → Ev
  | execC : Nat → Ev
  | execG : Nat → Ev
  | present : Nat → Ev
deriving DecidableEq

def step (p : PState) : Ev → Option PState
  | Ev.acquire i => some { p with sem := setSem p.sem (Sem.pres i) }
  | Ev.present i =>
      (fire [Sem.rend i] [] p.sem).map fun s => { p with sem := s }
  | Ev.execC i =>
      if i = p.nextC then
        (fire computeSubmitWaits computeSubmitSignals p.sem).map fun s =>
          { p with sem := s, nextC := p.nextC + 1 }
      else none
  | Ev.execG i =>
      if i = p.nextG then
        (fire (graphicsSubmitWaits i) (graphicsSubmitSignals i) p.sem).map fun s =>
          { p with sem := s, nextG := p.nextG + 1 }
      else none

def run (p : PState) : List Ev → Option PState
  | [] => some p
  | e :: tr =>
      match step p e with
      | some p2 => run p2 tr
      | none => none

/-- The state right after `prepareGraphicPass` primed the protocol: a
submission with no waits signals graphics.semaphore once (source lines
441-446), all other semaphores unsignalled, no frame submitted yet. -/
def initState : PState :=
  { sem := [Sem.g].foldl setSem ⟨false, false, [], []⟩, nextC := 0, nextG := 0 }

/-- Events that touch the shared particle buffer: the compute submission
writes it, the graphics submission reads it as a vertex buffer. -/
def isBufferEv : Ev → Bool
  | Ev.execC _ => true
  | Ev.execG _ => true
  | _ => false

def bufferEvents (tr : List Ev) : List Ev := tr.filter isBufferEv

/-- Element `j` of the canonical strictly alternating chain:
compute 0, graphics 0, compute 1, graphics 1, ... -/
def altEv (j : Nat) : Ev :=
  if j % 2 = 0 then Ev.execC (j / 2) else Ev.execG (j / 2)

/-- Segment of the canonical alternating chain starting at chain position
`a`, of length `n`. -/
def altChain (a n : Nat) : List Ev := (List.range' a n).map altEv

/-- Protocol invariant: either the two queues have executed equally many
submissions and only graphics.semaphore is signalled (the compute write
window may open next), or the compute queue is one ahead and only
compute.semaphore is signalled (the graphics read window may open next). -/
def SyncInv (p : PState) : Prop :=
  (p.nextC = p.nextG ∧ p.sem.gSig = true ∧ p.sem.cSig = false) ∨
  (p.nextC = p.nextG + 1 ∧ p.sem.gSig = false ∧ p.sem.cSig = true)

/-
Host-side per-frame sequence embedding (render / draw).
-/

inductive QueueRole where
  | graphicsQ : QueueRole
  | computeQ : QueueRole
deriving DecidableEq

/-- Host actions performed per frame by `render`/`draw`. -/
inductive HostAction where
  | updateComputeUniform : HostAction
  | updateGraphicsUniform : HostAction
  | submitToQueue (q : QueueRole) (waits signals : List Sem) : HostAction
  | acquireImage : HostAction
  | present : HostAction
deriving DecidableEq

/-- Host actions of `draw` (source lines 603-636): compute submission,
prepareFrame (image acquisition), graphics submission, submitFrame
(presentation). -/
def drawHostSeq (frame : Nat) : List HostAction :=
  [HostAction.submitToQueue QueueRole.computeQ computeSubmitWaits
     computeSubmitSignals,
   HostAction.acquireImage,
   HostAction.submitToQueue QueueRole.graphicsQ (graphicsSubmitWaits frame)
     (graphicsSubmitSignals frame),
   HostAction.present]

/-- Host actions of `render` (source lines 652-661): nothing when not
prepared, otherwise both uniform-buffer overwrites followed by `draw`. -/
def renderHostSeq (prepared : Bool) (frame : Nat) : List HostAction :=
  if prepared then
    [HostAction.updateComputeUniform] ++ [HostAction.updateGraphicsUniform] ++
      drawHostSeq frame
  else []

/-- Length of a flat buffer built from `A` equal-sized blocks. -/
theorem range_flatMap_length {α : Type} (f : Nat → List α) (per : Nat)
    (hf : ∀ i, (f i).length = per) (A : Nat) :
    ((List.range A).flatMap f).length = A * per := by
  induction A with
  | zero => simp
  | succ m ih =>
      rw [List.range_succ, List.flatMap_append, List.length_append, ih]
      simp [hf, Nat.succ_mul]

/-- Indexing into a flat buffer built from `A` equal-sized blocks. -/
theorem range_flatMap_getElem {α : Type} (f : Nat → List α) (per : Nat)
    (hf : ∀ i, (f i).length = per) (A : Nat) :
    ∀ i j : Nat, i < A → j < per →
      ((List.range A).flatMap f)[i * per + j]? = (f i)[j]? := by
  induction A with
  | zero => intro i j hi _; exact absurd hi (Nat.not_lt_zero i)
  | succ m ih =>
      intro i j hi hj
      rw [List.range_succ, List.flatMap_append, List.getElem?_append,
        range_flatMap_length f per hf m]
      rcases Nat.lt_or_ge i m with him | him
      · have h1 : i * per + j < (i + 1) * per := by rw [Nat.succ_mul]; omega
        have h2 : (i + 1) * per ≤ m * per := Nat.mul_le_mul_right per (by omega)
        rw [if_pos (by omega)]
        exact ih i j him hj
      · have him2 : i = m := by omega
        subst him2
        rw [if_neg (by omega)]
        have h3 : i * per + j - i * per = j := by omega
        simp [h3]

theorem initParticles_length (s : Nat → ℚ) (attrs : List Vec3) (per : Nat) :
    (initParticles s attrs per).length = attrs.length * per := by
  unfold initParticles
  exact range_flatMap_length _ per (fun i => by simp) attrs.length

theorem initParticles_getElem (s : Nat → ℚ) (attrs : List Vec3) (per i j : Nat)
    (hi : i < attrs.length) (hj : j < per) :
    (initParticles s attrs per)[i * per + j]? =
      some (particleAt s attrs.length per i j (attrs.getD i ⟨0, 0, 0⟩)) := by
  unfold initParticles
  rw [range_flatMap_getElem _ per (fun i => by simp) attrs.length i j hi hj]
  rw [List.getElem?_map, List.getElem?_range hj]
  rfl

theorem initParticles_mem {s : Nat → ℚ} {attrs : List Vec3} {per : Nat}
    {p : Particle} (hp : p ∈ initParticles s attrs per) :
    ∃ i j, i < attrs.length ∧ j < per ∧
      p = particleAt s attrs.length per i j (attrs.getD i ⟨0, 0, 0⟩) := by
  unfold initParticles at hp
  rw [List.mem_flatMap] at hp
  obtain ⟨i, hi, hp⟩ := hp
  rw [List.mem_map] at hp
  obtain ⟨j, hj, hp⟩ := hp
  exact ⟨i, j, List.mem_range.mp hi, List.mem_range.mp hj, hp.symm⟩

theorem gradient_bound (i A : Nat) (hi : i < A) :
    0 ≤ gradientIndex i A ∧ gradientIndex i A < 1 := by
  have hA : 0 < A := Nat.lt_of_le_of_lt (Nat.zero_le i) hi
  unfold gradientIndex
  constructor
  · positivity
  · rw [div_lt_one (by exact_mod_cast hA)]
    exact_mod_cast hi


/-- C8: for every sample stream, attractor list and positive
particles-per-attractor count, the initialized particle buffer has length
attractorCount * particlesPerAttractor, and the first particle of each
attractor group has zero velocity (all three velocity components are 0). -/
theorem buffer_length_and_center_velocity (s : Nat → ℚ) (attrs : List Vec3)
    (per i : Nat) (hper : 0 < per) (hi : i < attrs.length) :
    (initParticles s attrs per).length = attrs.length * per ∧
    ∃ p, (initParticles s attrs per)[i * per]? = some p ∧
      p.vel.x = 0 ∧ p.vel.y = 0 ∧ p.vel.z = 0 := by
  refine ⟨initParticles_length s attrs per, ?_⟩
  refine ⟨particleAt s attrs.length per i 0 (attrs.getD i ⟨0, 0, 0⟩), ?_, ?_, ?_, ?_⟩
  · have h := initParticles_getElem s attrs per i 0 hi hper
    simpa using h
  · simp [particleAt, centerParticle]
  · simp [particleAt, centerParticle]
  · simp [particleAt, centerParticle]

theorem buffer_length_and_center_velocity_wit :
    (0 : Nat) < 2 ∧
    ((initParticles (fun _ => (0 : ℚ)) attractors 2).length = attractors.length * 2 ∧
      ∃ p, (initParticles (fun _ => (0 : ℚ)) attractors 2)[0 * 2]? = some p ∧
        p.vel.x = 0 ∧ p.vel.y = 0 ∧ p.vel.z = 0) :=
  ⟨by decide,
   buffer_length_and_center_velocity (fun _ => 0) attractors 2 0 (by decide) (by decide)⟩

/-- C4 (amended): every particle of the initialized buffer has its gradient
index in [0, 1) unconditionally; its mass is strictly positive provided
every Gaussian sample of the stream exceeds -1. -/
theorem mass_pos_gradient_range (s : Nat → ℚ) (per : Nat) (p : Particle)
    (hp : p ∈ initParticles s attractors per) :
    (0 ≤ p.vel.w ∧ p.vel.w < 1) ∧
    ((∀ n, (-1 : ℚ) < s n) → 0 < p.pos.w) := by
  obtain ⟨i, j, hi, hj, rfl⟩ := initParticles_mem hp
  have hg := gradient_bound i attractors.length hi
  by_cases hj0 : j = 0
  · subst hj0
    simp only [particleAt, if_pos rfl, centerParticle]
    exact ⟨⟨hg.1, hg.2⟩, fun _ => by norm_num⟩
  · simp only [particleAt, if_neg hj0, bodyParticle]
    refine ⟨⟨hg.1, hg.2⟩, fun hs => ?_⟩
    have h6 := hs (7 * (i * (per - 1) + (j - 1)) + 6)
    unfold bodyMass
    nlinarith

theorem mass_pos_gradient_range_wit :
    (0 ≤ (particleAt (fun _ => (0 : ℚ)) attractors.length 1 0 0
          (attractors.getD 0 ⟨0, 0, 0⟩)).vel.w ∧
     (particleAt (fun _ => (0 : ℚ)) attractors.length 1 0 0
          (attractors.getD 0 ⟨0, 0, 0⟩)).vel.w < 1) ∧
    0 < (particleAt (fun _ => (0 : ℚ)) attractors.length 1 0 0
          (attractors.getD 0 ⟨0, 0, 0⟩)).pos.w :=
  have h := mass_pos_gradient_range (fun _ => 0) 1
    (particleAt (fun _ => (0 : ℚ)) attractors.length 1 0 0
      (attractors.getD 0 ⟨0, 0, 0⟩))
    (List.getElem?_mem (initParticles_getElem (fun _ => 0) attractors 1 0 0
      (by decide) (by decide)))
  ⟨h.1, h.2 (fun _ => by norm_num)⟩

/-- C4 counterexample: with a stream whose Gaussian samples are -2 (a value
the normal distribution produces), the initialized buffer contains a
particle (group 0, slot 1) whose mass is not strictly positive, refuting
the unconditional mass-positivity claim. -/
theorem mass_not_always_positive_cex :
    (particleAt (fun _ => (-2 : ℚ)) attractors.length 2 0 1
        (attractors.getD 0 ⟨0, 0, 0⟩)).pos.w ≤ 0 ∧
    particleAt (fun _ => (-2 : ℚ)) attractors.length 2 0 1
        (attractors.getD 0 ⟨0, 0, 0⟩) ∈
      initParticles (fun _ => (-2 : ℚ)) attractors 2 := by
  constructor
  · norm_num [particleAt, bodyParticle, bodyMass]
  · have h := initParticles_getElem (fun _ => (-2 : ℚ)) attractors 2 0 1
      (by decide) (by decide)
    exact List.getElem?_mem h

/-- C5 (amended): for every nonzero sampled offset, the attenuation factor
`2 - len^2` applied to the particle's y coordinate equals 1 (since `len` is
the length of the normalized offset), so the multiplication leaves the
position unchanged — the factor does not vary with the offset. -/
theorem y_attenuation_factor_eq_one (r0 r1 r2 : ℚ) (attr : Vec3)
    (h : dot (bodyOffset r0 r1 r2) (bodyOffset r0 r1 r2) ≠ 0) :
    yFactor (vsub (vadd attr (bodyOffset r0 r1 r2)) attr) = 1 ∧
    bodyPosition r0 r1 r2 attr = vadd attr (bodyOffset r0 r1 r2) := by
  have hsub : vsub (vadd attr (bodyOffset r0 r1 r2)) attr = bodyOffset r0 r1 r2 := by
    obtain ⟨ax, ay, az⟩ := attr
    simp only [vsub, vadd, bodyOffset, vscale, Vec3.mk.injEq]
    refine ⟨by ring, by ring, by ring⟩
  have hf : yFactor (vsub (vadd attr (bodyOffset r0 r1 r2)) attr) = 1 := by
    rw [hsub]
    unfold yFactor normLenSq
    rw [div_self h]
    norm_num
  refine ⟨hf, ?_⟩
  show (⟨(vadd attr (bodyOffset r0 r1 r2)).x,
        (vadd attr (bodyOffset r0 r1 r2)).y *
          yFactor (vsub (vadd attr (bodyOffset r0 r1 r2)) attr),
        (vadd attr (bodyOffset r0 r1 r2)).z⟩ : Vec3) = vadd attr (bodyOffset r0 r1 r2)
  rw [hf, mul_one]

theorem y_attenuation_factor_eq_one_wit :
    yFactor (vsub (vadd ⟨5, 0, 0⟩ (bodyOffset 1 0 0)) ⟨5, 0, 0⟩) = 1 ∧
    bodyPosition 1 0 0 ⟨5, 0, 0⟩ = vadd ⟨5, 0, 0⟩ (bodyOffset 1 0 0) :=
  y_attenuation_factor_eq_one 1 0 0 ⟨5, 0, 0⟩
    (by norm_num [bodyOffset, vscale, dot])

/-- C5 counterexample: two different sampled offsets yield the same
attenuation factor 1, so the factor does not vary with the sampled offset,
and on a concrete body particle the y multiplication is the identity
(offset (-3/2,-3/2,-3/2) around attractor (5,0,0) keeps y = -3/2). -/
theorem y_attenuation_does_not_vary_cex :
    yFactor (bodyOffset 1 0 0) = yFactor (bodyOffset 2 5 7) ∧
    yFactor (bodyOffset 1 0 0) = 1 ∧
    bodyOffset 1 0 0 ≠ bodyOffset 2 5 7 ∧
    (bodyPosition (-2) (-2) (-2) ⟨5, 0, 0⟩).y = -(3/2) := by
  refine ⟨?_, ?_, ?_, ?_⟩
  · norm_num [yFactor, normLenSq, bodyOffset, vscale, dot]
  · norm_num [yFactor, normLenSq, bodyOffset, vscale, dot]
  · norm_num [bodyOffset, vscale, Vec3.mk.injEq]
  · norm_num [bodyPosition, yFactor, normLenSq, bodyOffset, vscale, dot, vadd, vsub]

/-- C9: with benchmarking active the random seed is the fixed constant 0,
and the particle initializer is a deterministic function of the sample
stream: it reads only the first 7 * (attractorCount * (per - 1)) samples,
so two streams agreeing on that prefix produce identical particle buffers. -/
theorem init_deterministic_of_seed (s1 s2 : Nat → ℚ) (attrs : List Vec3)
    (per t : Nat)
    (h : ∀ n, n < 7 * (attrs.length * (per - 1)) → s1 n = s2 n) :
    chosenSeed true t = 0 ∧
    initParticles s1 attrs per = initParticles s2 attrs per := by
  refine ⟨rfl, ?_⟩
  unfold initParticles
  refine List.flatMap_congr fun i hi => ?_
  refine List.map_congr_left fun j hj => ?_
  rw [List.mem_range] at hi hj
  by_cases hj0 : j = 0
  · simp [particleAt, hj0]
  · have h1j : 1 ≤ j := Nat.one_le_iff_ne_zero.mpr hj0
    have hkey : i * (per - 1) + (j - 1) + 1 ≤ attrs.length * (per - 1) := by
      have hj2 : j - 1 + 1 ≤ per - 1 := by omega
      calc i * (per - 1) + (j - 1) + 1 ≤ i * (per - 1) + (per - 1) := by omega
        _ = (i + 1) * (per - 1) := (Nat.succ_mul i (per - 1)).symm
        _ ≤ attrs.length * (per - 1) := Nat.mul_le_mul_right _ (by omega)
    have hb : 7 * (i * (per - 1) + (j - 1)) + 6 < 7 * (attrs.length * (per - 1)) := by
      have h7 := Nat.mul_le_mul_left 7 hkey
      omega
    simp only [particleAt, if_neg hj0]
    generalize hu : 7 * (i * (per - 1) + (j - 1)) = base at hb ⊢
    rw [h base (by omega), h (base + 1) (by omega), h (base + 2) (by omega),
      h (base + 3) (by omega), h (base + 4) (by omega), h (base + 5) (by omega),
      h (base + 6) (by omega)]

theorem init_deterministic_of_seed_wit :
    chosenSeed true 5 = 0 ∧
    initParticles (fun _ => (1 : ℚ)) attractors 2 =
      initParticles (fun _ => (1 : ℚ)) attractors 2 :=
  init_deterministic_of_seed (fun _ => 1) (fun _ => 1) attractors 2 5
    (fun _ _ => rfl)

/-- C2: for every pair of queue-family indices, the ownership-transfer
barriers are recorded if and only if the indices differ: the upload stream
records exactly one (the release to the compute family), the compute and
graphics command buffers exactly two each (acquire and release), and none
is recorded when the indices coincide; hence
emitsBarrier gq cq = (gq ≠ cq). -/
theorem ownership_barriers_iff_families_differ (gq cq n : Nat) :
    ownershipBarrierCount (uploadCmds gq cq) = (if gq = cq then 0 else 1) ∧
    ownershipBarrierCount (computeCmds gq cq n) = (if gq = cq then 0 else 2) ∧
    ownershipBarrierCount (graphicsCmds gq cq n) = (if gq = cq then 0 else 2) ∧
    (emitsBarrier gq cq n = true ↔ gq ≠ cq) := by
  by_cases h : gq = cq
  · simp [uploadCmds, computeCmds, graphicsCmds, ownershipBarrierCount,
      emitsBarrier, hasOwnershipBarrier, isOwnershipTransfer, h,
      VK_QUEUE_FAMILY_IGNORED]
  · have h2 : ¬cq = gq := fun hcg => h hcg.symm
    simp [uploadCmds, computeCmds, graphicsCmds, ownershipBarrierCount,
      emitsBarrier, hasOwnershipBarrier, isOwnershipTransfer, h, h2,
      VK_QUEUE_FAMILY_IGNORED]

/-- C3 (amended): both compute dispatches are recorded with workgroup count
numParticles / 256 rounded DOWN (integer division); this equals
ceil(numParticles / 256) exactly when 256 divides numParticles. -/
theorem dispatch_count_floor_div (gq cq n : Nat) :
    dispatchCounts (computeCmds gq cq n) = [n / 256, n / 256] ∧
    (256 ∣ n → n / 256 = (n + 255) / 256) := by
  constructor
  · by_cases h : gq = cq <;>
      simp [computeCmds, dispatchCounts, dispatchGroupCount, h]
  · rintro ⟨k, rfl⟩
    omega

theorem dispatch_count_floor_div_wit :
    dispatchCounts (computeCmds 0 1 512) = [512 / 256, 512 / 256] ∧
    512 / 256 = (512 + 255) / 256 :=
  ⟨(dispatch_count_floor_div 0 1 512).1,
   (dispatch_count_floor_div 0 1 512).2 (by decide)⟩

/-- C3 counterexample: at particle count 255 the recorded workgroup count
of both dispatches is 255 / 256 = 0, whereas ceil(255 / 256) = 1, so the
dispatch count rounds down, not up. -/
theorem dispatch_count_not_ceil_cex :
    dispatchCounts (computeCmds 0 0 255) = [0, 0] ∧
    (255 + 256 - 1) / 256 = 1 ∧ (0 : Nat) ≠ 1 := by
  refine ⟨?_, by decide, by decide⟩
  have h := (dispatch_count_floor_div 0 0 255).1
  simpa using h

/-- C6: when the graphics and compute queue families differ, the compute
command buffer is exactly: an acquire barrier (src access none, dst access
shader-write, graphics family to compute family), the Calculate bind and
dispatch, the in-queue shader-to-shader barrier, the Integrate bind and
dispatch, and finally a release barrier (src access shader-write, dst
access none, compute family back to graphics family). -/
theorem compute_cmdbuf_acquire_release (gq cq n : Nat) (h : gq ≠ cq) :
    computeCmds gq cq n =
      [Cmd.pipelineBarrier VK_PIPELINE_STAGE_TOP_OF_PIPE_BIT
         VK_PIPELINE_STAGE_COMPUTE_SHADER_BIT
         ⟨0, VK_ACCESS_SHADER_WRITE_BIT, gq, cq⟩,
       Cmd.bindPipeline Pipe.calculate,
       Cmd.bindDescriptorSets,
       Cmd.dispatch (n / 256) 1 1,
       Cmd.pipelineBarrier VK_PIPELINE_STAGE_COMPUTE_SHADER_BIT
         VK_PIPELINE_STAGE_COMPUTE_SHADER_BIT
         ⟨VK_ACCESS_SHADER_WRITE_BIT, VK_ACCESS_SHADER_READ_BIT,
          VK_QUEUE_FAMILY_IGNORED, VK_QUEUE_FAMILY_IGNORED⟩,
       Cmd.bindPipeline Pipe.integrate,
       Cmd.dispatch (n / 256) 1 1,
       Cmd.pipelineBarrier VK_PIPELINE_STAGE_COMPUTE_SHADER_BIT
         VK_PIPELINE_STAGE_BOTTOM_OF_PIPE_BIT
         ⟨VK_ACCESS_SHADER_WRITE_BIT, 0, cq, gq⟩] := by
  simp [computeCmds, h]

theorem compute_cmdbuf_acquire_release_wit :
    computeCmds 0 1 256 =
      [Cmd.pipelineBarrier VK_PIPELINE_STAGE_TOP_OF_PIPE_BIT
         VK_PIPELINE_STAGE_COMPUTE_SHADER_BIT
         ⟨0, VK_ACCESS_SHADER_WRITE_BIT, 0, 1⟩,
       Cmd.bindPipeline Pipe.calculate,
       Cmd.bindDescriptorSets,
       Cmd.dispatch (256 / 256) 1 1,
       Cmd.pipelineBarrier VK_PIPELINE_STAGE_COMPUTE_SHADER_BIT
         VK_PIPELINE_STAGE_COMPUTE_SHADER_BIT
         ⟨VK_ACCESS_SHADER_WRITE_BIT, VK_ACCESS_SHADER_READ_BIT,
          VK_QUEUE_FAMILY_IGNORED, VK_QUEUE_FAMILY_IGNORED⟩,
       Cmd.bindPipeline Pipe.integrate,
       Cmd.dispatch (256 / 256) 1 1,
       Cmd.pipelineBarrier VK_PIPELINE_STAGE_COMPUTE_SHADER_BIT
         VK_PIPELINE_STAGE_BOTTOM_OF_PIPE_BIT
         ⟨VK_ACCESS_SHADER_WRITE_BIT, 0, 1, 0⟩] :=
  compute_cmdbuf_acquire_release 0 1 256 (by decide)

/-- C7: when the example is prepared, each frame performs exactly, in
order: overwrite the compute uniform buffer, overwrite the graphics uniform
buffer, submit the compute command buffer (waiting on the graphics
semaphore, signalling the compute semaphore), acquire the next presentable
image, submit the graphics command buffer (waiting on the compute and
presentComplete semaphores, signalling the graphics and renderComplete
semaphores), then present; when not prepared, nothing happens. -/
theorem per_frame_host_sequence (frame : Nat) :
    renderHostSeq true frame =
      [HostAction.updateComputeUniform,
       HostAction.updateGraphicsUniform,
       HostAction.submitToQueue QueueRole.computeQ [Sem.g] [Sem.c],
       HostAction.acquireImage,
       HostAction.submitToQueue QueueRole.graphicsQ [Sem.c, Sem.pres frame]
         [Sem.g, Sem.rend frame],
       HostAction.present] ∧
    renderHostSeq false frame = [] :=
  ⟨rfl, rfl⟩

/-- C10: in both compiled configurations (desktop: 6 * 4096 = 24576,
Android: 6 * 3072 = 18432 particles) the particle count is a multiple of
the workgroup size 256, so the floor-division workgroup count equals the
ceiling, and the spawned global thread indices are exactly the particle
indices 0 .. numParticles - 1, each covered once. -/
theorem compiled_config_alignment (android : Bool) :
    256 ∣ numParticles android ∧
    numParticles android / 256 = (numParticles android + 255) / 256 ∧
    dispatchThreadIds (numParticles android) = List.range (numParticles android) := by
  have h : (numParticles android / 256) * 256 = numParticles android := by
    cases android <;> decide
  refine ⟨?_, ?_, ?_⟩
  · cases android <;> · show 256 ∣ _; decide
  · cases android <;> decide
  · unfold dispatchThreadIds
    rw [h]

theorem fire_compute (s : SemSt) :
    fire computeSubmitWaits computeSubmitSignals s =
      if s.gSig then some { s with gSig := false, cSig := true } else none := by
  obtain ⟨g, c, pres, rend⟩ := s
  cases g <;> rfl

theorem fire_graphics (i : Nat) (s : SemSt) :
    fire (graphicsSubmitWaits i) (graphicsSubmitSignals i) s =
      if s.cSig && s.presSig.contains i then
        some ⟨true, false, s.presSig.erase i, i :: s.rendSig⟩
      else none := by
  obtain ⟨g, c, pres, rend⟩ := s
  cases c
  · rfl
  · by_cases hp : pres.contains i <;>
      simp [fire, graphicsSubmitWaits, graphicsSubmitSignals, getSem, setSem,
        clearSem, hp]

theorem fire_present (i : Nat) (s : SemSt) :
    fire [Sem.rend i] [] s =
      if s.rendSig.contains i then
        some { s with rendSig := s.rendSig.erase i }
      else none := by
  obtain ⟨g, c, pres, rend⟩ := s
  by_cases hr : rend.contains i <;> simp [fire, getSem, clearSem, hr]

theorem altChain_succ (a n : Nat) :
    altChain a (n + 1) = altEv a :: altChain (a + 1) n := by
  rw [altChain, List.range'_succ, List.map_cons]
  rfl

theorem altEv_even (k : Nat) : altEv (k + k) = Ev.execC k := by
  have h2 : (k + k) % 2 = 0 := by omega
  have hd : (k + k) / 2 = k := by omega
  simp [altEv, h2, hd]

theorem altEv_odd (k : Nat) : altEv (k + k + 1) = Ev.execG k := by
  have h2 : ¬((k + k + 1) % 2 = 0) := by omega
  have hd : (k + k + 1) / 2 = k := by omega
  simp [altEv, h2, hd]

/-- Trace-shape lemma: from any state satisfying the protocol invariant,
every successful run preserves the invariant and its buffer-touching events
are exactly the corresponding segment of the canonical alternating chain. -/
theorem run_traceShape (tr : List Ev) :
    ∀ p q : PState, run p tr = some q → SyncInv p →
      SyncInv q ∧ ∃ n, q.nextC + q.nextG = p.nextC + p.nextG + n ∧
        bufferEvents tr = altChain (p.nextC + p.nextG) n := by
  induction tr with
  | nil =>
      intro p q hrun hinv
      have hpq : p = q := by simpa [run] using hrun
      subst hpq
      exact ⟨hinv, 0, rfl, rfl⟩
  | cons e tr ih =>
      intro p q hrun hinv
      cases e with
      | acquire i =>
          simp only [run, step] at hrun
          obtain ⟨hq, n, hsum, hbe⟩ := ih _ q hrun hinv
          refine ⟨hq, n, hsum, ?_⟩
          simpa [bufferEvents, isBufferEv] using hbe
      | present i =>
          by_cases hr : i ∈ p.sem.rendSig
          · simp [run, step, fire_present, hr] at hrun
            obtain ⟨hq, n, hsum, hbe⟩ := ih _ q hrun hinv
            refine ⟨hq, n, hsum, ?_⟩
            simpa [bufferEvents, isBufferEv] using hbe
          · simp [run, step, fire_present, hr] at hrun
      | execC i =>
          by_cases hi : i = p.nextC
          · subst hi
            rcases hinv with ⟨h1, h2, h3⟩ | ⟨h1, h2, h3⟩
            · simp [run, step, fire_compute, h2] at hrun
              obtain ⟨hq, n, hsum, hbe⟩ :=
                ih _ q hrun (Or.inr ⟨by simp [h1], by simp, by simp⟩)
              refine ⟨hq, n + 1, ?_, ?_⟩
              · simp at hsum
                omega
              · have hfe : bufferEvents (Ev.execC p.nextC :: tr) =
                    Ev.execC p.nextC :: bufferEvents tr := by
                  simp [bufferEvents, isBufferEv]
                rw [hfe]
                simp at hbe
                rw [(by omega : p.nextC + 1 + p.nextG = p.nextC + p.nextG + 1)] at hbe
                rw [hbe, ← h1, altChain_succ, altEv_even]
            · simp [run, step, fire_compute, h2] at hrun
          · simp [run, step, hi] at hrun
      | execG i =>
          by_cases hi : i = p.nextG
          · subst hi
            rcases hinv with ⟨h1, h2, h3⟩ | ⟨h1, h2, h3⟩
            · simp [run, step, fire_graphics, h3] at hrun
            · by_cases hp : p.nextG ∈ p.sem.presSig
              · simp [run, step, fire_graphics, h3, hp] at hrun
                obtain ⟨hq, n, hsum, hbe⟩ :=
                  ih _ q hrun (Or.inl ⟨by simp [h1], by simp, by simp⟩)
                refine ⟨hq, n + 1, ?_, ?_⟩
                · simp at hsum
                  omega
                · have hfe : bufferEvents (Ev.execG p.nextG :: tr) =
                      Ev.execG p.nextG :: bufferEvents tr := by
                    simp [bufferEvents, isBufferEv]
                  rw [hfe]
                  simp at hbe
                  rw [(by omega : p.nextC + (p.nextG + 1) = p.nextC + p.nextG + 1)] at hbe
                  rw [hbe, h1]
                  rw [(by omega : p.nextG + 1 + p.nextG = p.nextG + p.nextG + 1)]
                  rw [altChain_succ, altEv_odd]
              · simp [run, step, fire_graphics, h3, hp] at hrun
          · simp [run, step, hi] at hrun

/-- C1: the compute submission waits on the graphics semaphore and signals
the compute semaphore, the graphics submission waits on the compute (and
presentComplete) semaphores and signals the graphics (and renderComplete)
semaphores, and the graphics semaphore is signalled once before the first
frame; consequently, in every reachable schedule of the two queues and the
presentation engine, the buffer-touching submissions are exactly a prefix
of the strictly alternating chain compute 0, graphics 0, compute 1,
graphics 1, ... — no two of them are ever unordered. -/
theorem compute_graphics_strict_alternation (tr : List Ev) (q : PState)
    (h : run initState tr = some q) :
    bufferEvents tr = altChain 0 (q.nextC + q.nextG) ∧ SyncInv q ∧
    initState.sem.gSig = true := by
  obtain ⟨hq, n, hsum, hbe⟩ :=
    run_traceShape tr initState q h (Or.inl ⟨rfl, rfl, rfl⟩)
  refine ⟨?_, hq, rfl⟩
  have h0 : initState.nextC + initState.nextG = 0 := rfl
  rw [h0] at hsum hbe
  rw [hsum]
  simpa using hbe

theorem compute_graphics_strict_alternation_wit :
    bufferEvents [Ev.acquire 0, Ev.execC 0, Ev.execG 0, Ev.execC 1] =
      altChain 0 3 :=
  (compute_graphics_strict_alternation
    [Ev.acquire 0, Ev.execC 0, Ev.execG 0, Ev.execC 1]
    ⟨⟨false, true, [], [0]⟩, 2, 1⟩ (by decide)).1
